import Mathlib

/-!
Verification of the trust_time address-generation and timestamp-verification
program (src/trust_time.js) against its natural-language specification.

The program is embedded shallowly: buffers become lists of byte values
(natural numbers below 256), the cryptographic primitives from the node
crypto module (SHA-256, RIPEMD-160) and the bs58 package (base-58
encoding) are implemented bit-for-bit from their public specifications,
and the asynchronous callback code becomes explicit functions from the
possible external events to the observable outcomes.
-/

/-! ## Words and bytes -/

/-- Truncation to a 32-bit machine word. -/
def w32 (x : Nat) : Nat := x % 4294967296

/-- Rotate a 32-bit word right by `n` (0 < n < 32). -/
def rotr32 (n x : Nat) : Nat := w32 ((x >>> n) ||| (x <<< (32 - n)))

/-- Rotate a 32-bit word left by `n` (0 < n < 32). -/
def rotl32 (n x : Nat) : Nat := w32 ((x <<< n) ||| (x >>> (32 - n)))

/-- Big-endian bytes of a 32-bit word. -/
def wordBytesBE (w : Nat) : List Nat :=
  [w / 16777216 % 256, w / 65536 % 256, w / 256 % 256, w % 256]

/-- Little-endian bytes of a 32-bit word. -/
def wordBytesLE (w : Nat) : List Nat :=
  [w % 256, w / 256 % 256, w / 65536 % 256, w / 16777216 % 256]

/-- Serialize a word list to bytes, big-endian per word. -/
def wordsToBytesBE (ws : List Nat) : List Nat := (ws.map wordBytesBE).flatten

/-- Serialize a word list to bytes, little-endian per word. -/
def wordsToBytesLE (ws : List Nat) : List Nat := (ws.map wordBytesLE).flatten

/-- Read the 32-bit big-endian word at byte offset `4*i` of `l`. -/
def wordAtBE (l : List Nat) (i : Nat) : Nat :=
  l.getD (4*i) 0 * 16777216 + l.getD (4*i+1) 0 * 65536 +
    l.getD (4*i+2) 0 * 256 + l.getD (4*i+3) 0

/-- Read the 32-bit little-endian word at byte offset `4*i` of `l`. -/
def wordAtLE (l : List Nat) (i : Nat) : Nat :=
  l.getD (4*i) 0 + l.getD (4*i+1) 0 * 256 +
    l.getD (4*i+2) 0 * 65536 + l.getD (4*i+3) 0 * 16777216

/-- Group a byte list into 16 big-endian words (one 64-byte block). -/
def bytesToWordsBE (l : List Nat) : List Nat :=
  (List.range 16).map (wordAtBE l)

/-- Group a byte list into 16 little-endian words (one 64-byte block). -/
def bytesToWordsLE (l : List Nat) : List Nat :=
  (List.range 16).map (wordAtLE l)

/-- Fixed-width big-endian byte representation of `v` on `k` bytes. -/
def natToBytesBEFixed : Nat → Nat → List Nat
  | 0, _ => []
  | k+1, v => natToBytesBEFixed k (v / 256) ++ [v % 256]

/-- Fixed-width little-endian byte representation of `v` on `k` bytes. -/
def natToBytesLEFixed : Nat → Nat → List Nat
  | 0, _ => []
  | k+1, v => v % 256 :: natToBytesLEFixed k (v / 256)

/-- Split a (padded) message into its successive 64-byte blocks. -/
def blocks64 (l : List Nat) : List (List Nat) :=
  (List.range (l.length / 64)).map (fun i => (l.drop (64*i)).take 64)

/-- Number of zero pad bytes of Merkle-Damgard padding: after the `0x80`
byte, pad with zeros so that the length is 56 mod 64. -/
def mdZeroPad (len : Nat) : Nat := (120 - (len + 1) % 64) % 64

/-! ## SHA-256 (FIPS 180-4), as computed by the node crypto module -/

/-- The 64 SHA-256 round constants. -/
def sha256K : List Nat :=
  [1116352408, 1899447441, 3049323471, 3921009573, 961987163,
   1508970993, 2453635748, 2870763221, 3624381080, 310598401,
   607225278, 1426881987, 1925078388, 2162078206, 2614888103,
   3248222580, 3835390401, 4022224774, 264347078, 604807628,
   770255983, 1249150122, 1555081692, 1996064986, 2554220882,
   2821834349, 2952996808, 3210313671, 3336571891, 3584528711,
   113926993, 338241895, 666307205, 773529912, 1294757372,
   1396182291, 1695183700, 1986661051, 2177026350, 2456956037,
   2730485921, 2820302411, 3259730800, 3345764771, 3516065817,
   3600352804, 4094571909, 275423344, 430227734, 506948616,
   659060556, 883997877, 958139571, 1322822218, 1537002063,
   1747873779, 1955562222, 2024104815, 2227730452, 2361852424,
   2428436474, 2756734187, 3204031479, 3329325298]

/-- The SHA-256 initial hash words. -/
def sha256H0 : List Nat :=
  [1779033703, 3144134277, 1013904242, 2773480762,
   1359893119, 2600822924, 528734635, 1541459225]

/-- SHA-256 small sigma 0. -/
def ssig0 (x : Nat) : Nat := rotr32 7 x ^^^ rotr32 18 x ^^^ (x >>> 3)

/-- SHA-256 small sigma 1. -/
def ssig1 (x : Nat) : Nat := rotr32 17 x ^^^ rotr32 19 x ^^^ (x >>> 10)

/-- SHA-256 padding: append 0x80, zeros, and the 64-bit big-endian bit
length. -/
def padSha256 (msg : List Nat) : List Nat :=
  msg ++ 128 :: List.replicate (mdZeroPad msg.length) 0 ++
    natToBytesBEFixed 8 (8 * msg.length)

/-- Extend the 16 block words to the 64-word SHA-256 message schedule. -/
def sha256Schedule (block : List Nat) : List Nat :=
  (List.range 48).foldl
    (fun w t =>
      w ++ [w32 (w.getD t 0 + ssig0 (w.getD (t+1) 0) + w.getD (t+9) 0 +
                 ssig1 (w.getD (t+14) 0))])
    (bytesToWordsBE block)

/-- One SHA-256 compression round on the eight working words. -/
def sha256Round (k w : Nat) (s : List Nat) : List Nat :=
  let a := s.getD 0 0
  let b := s.getD 1 0
  let c := s.getD 2 0
  let d := s.getD 3 0
  let e := s.getD 4 0
  let f := s.getD 5 0
  let g := s.getD 6 0
  let h := s.getD 7 0
  let S1 := rotr32 6 e ^^^ rotr32 11 e ^^^ rotr32 25 e
  let ch := (e &&& f) ^^^ ((e ^^^ 0xffffffff) &&& g)
  let t1 := w32 (h + S1 + ch + k + w)
  let S0 := rotr32 2 a ^^^ rotr32 13 a ^^^ rotr32 22 a
  let maj := (a &&& b) ^^^ (a &&& c) ^^^ (b &&& c)
  let t2 := w32 (S0 + maj)
  [w32 (t1 + t2), a, b, c, w32 (d + t1), e, f, g]

/-- SHA-256 compression of one 64-byte block into the hash state. -/
def sha256Compress (h : List Nat) (block : List Nat) : List Nat :=
  let w := sha256Schedule block
  let s := (List.range 64).foldl
    (fun s i => sha256Round (sha256K.getD i 0) (w.getD i 0) s) h
  List.zipWith (fun x y => w32 (x + y)) h s

/-- SHA-256 digest of a byte list: 32 bytes. -/
def sha256 (msg : List Nat) : List Nat :=
  wordsToBytesBE ((blocks64 (padSha256 msg)).foldl sha256Compress sha256H0)

/-! ## RIPEMD-160, as computed by the node crypto module -/

/-- RIPEMD-160 initial hash words. -/
def ripH0 : List Nat := [1732584193, 4023233417, 2562383102, 271733878, 3285377520]

/-- RIPEMD-160 left-line message word order. -/
def ripOrdL : List Nat :=
  [0,1,2,3,4,5,6,7,8,9,10,11,12,13,14,15,
   7,4,13,1,10,6,15,3,12,0,9,5,2,14,11,8,
   3,10,14,4,9,15,8,1,2,7,0,6,13,11,5,12,
   1,9,11,10,0,8,12,4,13,3,7,15,14,5,6,2,
   4,0,5,9,7,12,2,10,14,1,3,8,11,6,15,13]

/-- RIPEMD-160 right-line message word order. -/
def ripOrdR : List Nat :=
  [5,14,7,0,9,2,11,4,13,6,15,8,1,10,3,12,
   6,11,3,7,0,13,5,10,14,15,8,12,4,9,1,2,
   15,5,1,3,7,14,6,9,11,8,12,2,10,0,4,13,
   8,6,4,1,3,11,15,0,5,12,2,13,9,7,10,14,
   12,15,10,4,1,5,8,7,6,2,13,14,0,3,9,11]

/-- RIPEMD-160 left-line rotation amounts. -/
def ripRotL : List Nat :=
  [11,14,15,12,5,8,7,9,11,13,14,15,6,7,9,8,
   7,6,8,13,11,9,7,15,7,12,15,9,11,7,13,12,
   11,13,6,7,14,9,13,15,14,8,13,6,5,12,7,5,
   11,12,14,15,14,15,9,8,9,14,5,6,8,6,5,12,
   9,15,5,11,6,8,13,12,5,12,13,14,11,8,5,6]

/-- RIPEMD-160 right-line rotation amounts. -/
def ripRotR : List Nat :=
  [8,9,9,11,13,15,15,5,7,7,8,11,14,14,12,6,
   9,13,15,7,12,8,9,11,7,7,12,7,6,15,13,11,
   9,7,15,11,8,6,6,14,12,13,5,14,13,13,7,5,
   15,5,8,11,14,14,6,14,6,9,12,9,12,5,15,8,
   8,5,12,9,12,5,14,6,8,13,6,5,15,13,11,11]

/-- RIPEMD-160 round selection function, indexed by the step number. -/
def ripF (j x y z : Nat) : Nat :=
  if j < 16 then x ^^^ y ^^^ z
  else if j < 32 then (x &&& y) ||| ((x ^^^ 0xffffffff) &&& z)
  else if j < 48 then (x ||| (y ^^^ 0xffffffff)) ^^^ z
  else if j < 64 then (x &&& z) ||| (y &&& (z ^^^ 0xffffffff))
  else x ^^^ (y ||| (z ^^^ 0xffffffff))

/-- RIPEMD-160 left-line round constants. -/
def ripKL (j : Nat) : Nat :=
  if j < 16 then 0 else if j < 32 then 0x5a827999 else if j < 48 then 0x6ed9eba1
  else if j < 64 then 0x8f1bbcdc else 0xa953fd4e

/-- RIPEMD-160 right-line round constants. -/
def ripKR (j : Nat) : Nat :=
  if j < 16 then 0x50a28be6 else if j < 32 then 0x5c4dd124 else if j < 48 then 0x6d703ef3
  else if j < 64 then 0x7a6d76e9 else 0

/-- One RIPEMD-160 step on one line of the five working words. -/
def ripRound (X : List Nat) (left : Bool) (s : List Nat) (j : Nat) : List Nat :=
  let a := s.getD 0 0
  let b := s.getD 1 0
  let c := s.getD 2 0
  let d := s.getD 3 0
  let e := s.getD 4 0
  let f := ripF (if left then j else 79 - j) b c d
  let r := (if left then ripOrdL else ripOrdR).getD j 0
  let sh := (if left then ripRotL else ripRotR).getD j 0
  let k := if left then ripKL j else ripKR j
  let t := w32 (rotl32 sh (w32 (a + f + X.getD r 0 + k)) + e)
  [e, t, b, rotl32 10 c, d]

/-- RIPEMD-160 compression of one 64-byte block into the hash state. -/
def ripCompress (h : List Nat) (block : List Nat) : List Nat :=
  let X := bytesToWordsLE block
  let L := (List.range 80).foldl (ripRound X true) h
  let R := (List.range 80).foldl (ripRound X false) h
  [w32 (h.getD 1 0 + L.getD 2 0 + R.getD 3 0),
   w32 (h.getD 2 0 + L.getD 3 0 + R.getD 4 0),
   w32 (h.getD 3 0 + L.getD 4 0 + R.getD 0 0),
   w32 (h.getD 4 0 + L.getD 0 0 + R.getD 1 0),
   w32 (h.getD 0 0 + L.getD 1 0 + R.getD 2 0)]

/-- RIPEMD-160 padding: like SHA-256 but with a little-endian length. -/
def padRip (msg : List Nat) : List Nat :=
  msg ++ 128 :: List.replicate (mdZeroPad msg.length) 0 ++
    natToBytesLEFixed 8 (8 * msg.length)

/-- RIPEMD-160 digest of a byte list: 20 bytes. -/
def ripemd160 (msg : List Nat) : List Nat :=
  wordsToBytesLE ((blocks64 (padRip msg)).foldl ripCompress ripH0)

/-! ## Base-58 encoding (the bs58 package, Bitcoin alphabet) -/

/-- The Bitcoin base-58 alphabet used by the bs58 package. -/
def base58Chars : List Char :=
  "123456789ABCDEFGHJKLMNPQRSTUVWXYZabcdefghijkmnopqrstuvwxyz".toList

/-- The character of one base-58 digit. -/
def b58DigitChar (d : Nat) : Char := base58Chars.getD d '1'

/-- The value of one base-58 digit character. -/
def b58CharVal (c : Char) : Nat := base58Chars.indexOf c

/-- Little-endian base-`b` digits computed with explicit fuel, so that the
definition is structurally recursive. -/
def digitsFuel (b : Nat) : Nat → Nat → List Nat
  | 0, _ => []
  | f+1, n => if n = 0 then [] else n % b :: digitsFuel b f (n / b)

/-- Little-endian base-`b` digits of `n` (empty for 0, no leading zeros). -/
def natDigitsLE (b n : Nat) : List Nat := digitsFuel b n n

/-- Number of leading zero bytes of a byte list. -/
def countLeadingZeroBytes : List Nat → Nat
  | [] => 0
  | b :: t => if b = 0 then countLeadingZeroBytes t + 1 else 0

/-- The byte list with its leading zero bytes removed. -/
def dropLeadingZeroBytes : List Nat → List Nat
  | [] => []
  | b :: t => if b = 0 then dropLeadingZeroBytes t else b :: t

/-- Big-endian value of a byte list. -/
def bytesToNatBE (bs : List Nat) : Nat := bs.foldl (fun a b => a * 256 + b) 0

/-- Base-58 encoding as performed by the bs58 package: one leading
alphabet-zero character per leading zero byte, then the big-endian value of
the bytes written in base 58. -/
def base58Encode (bs : List Nat) : String :=
  String.mk (List.replicate (countLeadingZeroBytes bs) '1' ++
    ((natDigitsLE 58 (bytesToNatBE bs)).reverse.map b58DigitChar))

/-- Number of leading alphabet-zero characters of a base-58 string. -/
def countLeadingOnes : List Char → Nat
  | [] => 0
  | c :: t => if c = '1' then countLeadingOnes t + 1 else 0

/-- Value of a base-58 digit string. -/
def b58StrToNat (cs : List Char) : Nat := cs.foldl (fun a c => a * 58 + b58CharVal c) 0

/-- Base-58 decoding: one zero byte per leading alphabet-zero character,
then the minimal big-endian bytes of the base-58 value of the string. -/
def base58Decode (s : String) : List Nat :=
  List.replicate (countLeadingOnes s.data) 0 ++
    (natDigitsLE 256 (b58StrToNat s.data)).reverse

/-! ## Hex encoding (the node Buffer toString hex conversion) -/

/-- Lowercase hexadecimal digit character. -/
def hexDigitChar (n : Nat) : Char := "0123456789abcdef".toList.getD n '0'

/-- Two lowercase hexadecimal characters of one byte. -/
def byteToHex (b : Nat) : List Char := [hexDigitChar (b / 16), hexDigitChar (b % 16)]

/-- Lowercase hexadecimal string of a byte list. -/
def bytesToHex (bs : List Nat) : String := String.mk (bs.flatMap byteToHex)

/-! ## The embedded program: address generation (src/trust_time.js)

Buffers are byte lists. The source assigns the string constant
VERSION_BYTE into a Buffer cell; a node Buffer cell assignment coerces
the string through ToNumber, and ToNumber of the hex numeral string is 0,
so the stored byte is 0. -/

/-- The version byte stored by the source (after Buffer coercion of its
string constant). -/
def VERSION_BYTE : Nat := 0x00

/-- Embeds TrustTime.prototype so named _addVersionByte: a new buffer with the
version byte first and the input copied behind it. -/
def addVersionByte (buffer : List Nat) : List Nat := VERSION_BYTE :: buffer

/-- Embeds TrustTime.prototype so named _addChecksum: the concatenation of the
hash and the checksum. -/
def addChecksum (hash checksum : List Nat) : List Nat := hash ++ checksum

/-- The trace object (source name: detail) built by generateAddress, with
one hex string per intermediate value and the final base-58 string. -/
structure AddressDetail where
  documentSHA256 : String
  hash3 : String
  hash4 : String
  hash5 : String
  hash6 : String
  checksum : String
  hashWithChecksum : String
  base58Encode : String
deriving DecidableEq, Repr

/-- Embeds the DocumentAddress object constructed in the source. -/
structure DocumentAddress where
  address : String
  sha256 : String
  detail : AddressDetail
deriving DecidableEq, Repr

/-- Embeds TrustTime.prototype.generateAddress: RIPEMD-160 of the document
hash, version byte in front, double SHA-256, first four bytes as
checksum, checksum appended, base-58 encoded; every intermediate value
recorded in the detail object. -/
def generateAddress (docHash : List Nat) : DocumentAddress :=
  let hash3 := ripemd160 docHash
  let hash4 := addVersionByte hash3
  let hash5 := sha256 hash4
  let hash6 := sha256 hash5
  let checksum := hash6.take 4
  let hash4WithChecksum := addChecksum hash4 checksum
  let b58 := base58Encode hash4WithChecksum
  ⟨b58, bytesToHex docHash,
    ⟨bytesToHex docHash, bytesToHex hash3, bytesToHex hash4, bytesToHex hash5,
     bytesToHex hash6, bytesToHex checksum, bytesToHex hash4WithChecksum, b58⟩⟩

/-- The address pipeline written from the specification wording (section
4.2): h1 = RIPEMD160(digest), h2 = concat(0x00, h1), h3 = SHA256(h2),
h4 = SHA256(h3), checksum = h4[0:4], h5 = concat(h2, checksum),
address = base58Encode(h5). Used as the reference the embedded code is
compared with. -/
def deriveAddressSpec (digest : List Nat) : String :=
  let h1 := ripemd160 digest
  let h2 := 0x00 :: h1
  let h3 := sha256 h2
  let h4 := sha256 h3
  let cks := h4.take 4
  let h5 := h2 ++ cks
  base58Encode h5

/-! ## The embedded program: timestamp verification

The source queries the ledger through a restify JSON client and inspects
the callback arguments. The possible observable inputs are: the client
reported an error object; the parsed data is null-ish; the data has no
txs field; or the data carries a transaction list. Each transaction
carries its Unix time field (the only field the source reads). -/

/-- A ledger transaction record; the source reads only its time field
(Unix seconds). -/
structure LedgerTx where
  time : Nat
deriving DecidableEq, Repr

/-- The observable result of the restify GET of the address page. -/
inductive RestifyGet where
  /-- The client reported a transport error object (network failure,
  non-2xx status, malformed body). The payload stands for that object. -/
  | err (e : String)
  /-- The call succeeded with a null-ish parsed body. -/
  | okNoData
  /-- The call succeeded but the body has no txs field. -/
  | okNoTxs
  /-- The call succeeded with a transaction list. -/
  | okTxs (txs : List LedgerTx)
deriving DecidableEq, Repr

/-- An error value handed to a node callback by the source: either the
error object passed through from restify, or a plain string built by the
source itself. -/
inductive JsError where
  | errObject (e : String)
  | errString (s : String)
deriving DecidableEq, Repr

/-- The outcome observable at the verifyTimestamp callback: an error, or a
Date holding the given number of milliseconds. -/
inductive VerifyOutcome where
  | error (e : JsError)
  | success (dateMs : Nat)
deriving DecidableEq, Repr

/-- Stable insertion of one element under a JS comparator: the element
moves before the first strictly greater element, so equal-comparing
elements keep their original order. -/
def jsSortInsert (cmp : α → α → Int) (x : α) : List α → List α
  | [] => [x]
  | y :: t => if cmp x y < 0 then x :: y :: t else y :: jsSortInsert cmp x t

/-- A stable comparator sort, the behaviour the ECMAScript specification
requires of Array.prototype.sort (a comparator result that is NaN is
treated as 0, and the sort is stable). -/
def jsStableSort (cmp : α → α → Int) (l : List α) : List α :=
  l.foldl (fun acc x => jsSortInsert cmp x acc) []

/-- Embeds the comparator at source lines 194-196: Number(a) - Number(b)
where a and b are transaction objects. ToNumber of a plain object is NaN,
NaN - NaN is NaN, and the ECMAScript SortCompare turns a NaN comparator
result into +0 - so the comparator observed by the sort is constantly 0. -/
def txCompare (_a _b : LedgerTx) : Int := 0

/-- The error string built at source line 190. -/
def addressNotSeenMessage : String := "Address not seen in the network"

/-- Embeds DocumentAddress.prototype.verifyTimestamp from the callback
arguments onward: a transport error is passed through to the callback;
null-ish data, a missing txs field or an empty list yield the
address-not-seen string error; otherwise the list is sorted with the
object comparator and the first transaction time (Unix seconds, times
1000 through the Date constructor) is returned. -/
def verifyTimestamp (r : RestifyGet) : VerifyOutcome :=
  match r with
  | .err e => .error (.errObject e)
  | .okNoData => .error (.errString addressNotSeenMessage)
  | .okNoTxs => .error (.errString addressNotSeenMessage)
  | .okTxs [] => .error (.errString addressNotSeenMessage)
  | .okTxs (t :: ts) =>
      .success (((jsStableSort txCompare (t :: ts)).headD t).time * 1000)

/-! ## The embedded program: file digesting and the CLI

The stream handed to _sha256File can open and deliver its chunks followed
by the end event, fail to open (a single error event), or deliver some
chunks and then an error event. -/

/-- The event sequence a read stream can produce for a path. -/
inductive StreamEvents where
  /-- The path cannot be opened: one error event. -/
  | openError (e : String)
  /-- Some data events, then an error event mid-stream. -/
  | readError (chunks : List (List Nat)) (e : String)
  /-- All data events, then the end event. -/
  | complete (chunks : List (List Nat))
deriving DecidableEq, Repr

/-- The observable outcome of running _sha256File on a stream: the
callback got a digest, the callback got an error, or an event had no
registered handler and the emitter threw (a process crash). -/
inductive Sha256FileOutcome where
  | callbackSuccess (digest : List Nat)
  | callbackError (e : String)
  | uncaughtCrash (e : String)
deriving DecidableEq, Repr

/-- The error handler _sha256File registers on the stream: none. The
source (lines 48-59) subscribes only to the data and end events; a node
EventEmitter with no handler for an emitted error event throws. -/
def sha256FileErrorHandler : Option (String → Sha256FileOutcome) := none

/-- Embeds TrustTime.prototype so named _sha256File: data chunks are fed to
the hash, the end event finalizes the digest into the callback, and an
error event is dispatched to the registered error handler if there is
one, otherwise it crashes the process. -/
def sha256File (ev : StreamEvents) : Sha256FileOutcome :=
  match ev with
  | .openError e =>
      match sha256FileErrorHandler with
      | some h => h e
      | none => .uncaughtCrash e
  | .readError _ e =>
      match sha256FileErrorHandler with
      | some h => h e
      | none => .uncaughtCrash e
  | .complete chunks => .callbackSuccess (sha256 chunks.flatten)

/-- The exit code of the commander program help call at source line 223:
help prints the usage text and terminates the process at once through a
process exit call with no argument, which exits with code 0. The explicit
process exit call with code 1 on the following source line is therefore
never reached. -/
def commanderHelpExitCode : Nat := 0

/-- Embeds the command-line block (source lines 210-251) as a function
from the inputs it can observe to the process exit code. Modelling of the
process runtime: the commander help call terminates the process itself
with commanderHelpExitCode, so the exit call at line 224 is dead code; a
node process that ends with an uncaught exception exits with code 1; a
node process whose event loop drains without an explicit exit call exits
with code 0. -/
def cliRun (fileGiven : Bool) (verify : Bool) (ev : StreamEvents)
    (ledger : RestifyGet) : Nat :=
  if !fileGiven then commanderHelpExitCode
  else
    match sha256File ev with
    | .uncaughtCrash _ => 1
    | .callbackError _ => 0
    | .callbackSuccess digest =>
        let _docAddr := generateAddress digest
        if verify then
          match verifyTimestamp ledger with
          | .error _ => 1
          | .success _ => 0
        else 0

/-! ## Structural lemmas: output lengths and byte bounds -/

/-- A fold preserves any invariant its step preserves. -/
theorem foldl_preserves {α β : Type} (P : α → Prop) (f : α → β → α)
    (hf : ∀ s i, P s → P (f s i)) :
    ∀ (l : List β) (s : α), P s → P (l.foldl f s)
  | [], _, hs => hs
  | x :: t, s, hs => foldl_preserves P f hf t (f s x) (hf s x hs)

/-- A SHA-256 round yields eight working words. -/
theorem sha256Round_length (k w : Nat) (s : List Nat) :
    (sha256Round k w s).length = 8 := rfl

/-- SHA-256 compression preserves the eight-word state shape. -/
theorem sha256Compress_length (h b : List Nat) (hh : h.length = 8) :
    (sha256Compress h b).length = 8 := by
  have hs := foldl_preserves (fun s : List Nat => s.length = 8)
    (fun s i => sha256Round (sha256K.getD i 0) ((sha256Schedule b).getD i 0) s)
    (fun _ _ _ => rfl) (List.range 64) h hh
  show (List.zipWith (fun x y => w32 (x + y)) h
    ((List.range 64).foldl
      (fun s i => sha256Round (sha256K.getD i 0) ((sha256Schedule b).getD i 0) s) h)).length = 8
  rw [List.length_zipWith, hh, hs]
  rfl

/-- Serializing words big-endian yields four bytes per word. -/
theorem wordsToBytesBE_length : ∀ ws : List Nat, (wordsToBytesBE ws).length = 4 * ws.length
  | [] => rfl
  | w :: t => by
    have ih := wordsToBytesBE_length t
    simp only [wordsToBytesBE, List.map_cons, List.flatten_cons, List.length_append,
      List.length_cons, wordBytesBE, List.length_nil] at ih ⊢
    omega

/-- Serializing words little-endian yields four bytes per word. -/
theorem wordsToBytesLE_length : ∀ ws : List Nat, (wordsToBytesLE ws).length = 4 * ws.length
  | [] => rfl
  | w :: t => by
    have ih := wordsToBytesLE_length t
    simp only [wordsToBytesLE, List.map_cons, List.flatten_cons, List.length_append,
      List.length_cons, wordBytesLE, List.length_nil] at ih ⊢
    omega

/-- A SHA-256 digest is 32 bytes long. -/
theorem sha256_length (msg : List Nat) : (sha256 msg).length = 32 := by
  have h8 := foldl_preserves (fun s : List Nat => s.length = 8) sha256Compress
    (fun s b hs => sha256Compress_length s b hs) (blocks64 (padSha256 msg)) sha256H0 rfl
  show (wordsToBytesBE ((blocks64 (padSha256 msg)).foldl sha256Compress sha256H0)).length = 32
  rw [wordsToBytesBE_length, h8]

/-- RIPEMD-160 compression yields a five-word state. -/
theorem ripCompress_length (h b : List Nat) : (ripCompress h b).length = 5 := rfl

/-- A RIPEMD-160 digest is 20 bytes long. -/
theorem ripemd160_length (msg : List Nat) : (ripemd160 msg).length = 20 := by
  have h5 := foldl_preserves (fun s : List Nat => s.length = 5) ripCompress
    (fun s b _ => ripCompress_length s b) (blocks64 (padRip msg)) ripH0 rfl
  show (wordsToBytesLE ((blocks64 (padRip msg)).foldl ripCompress ripH0)).length = 20
  rw [wordsToBytesLE_length, h5]

/-- Every big-endian word byte is below 256. -/
theorem mem_wordBytesBE_lt (w b : Nat) (hb : b ∈ wordBytesBE w) : b < 256 := by
  simp only [wordBytesBE, List.mem_cons, List.not_mem_nil, or_false] at hb
  rcases hb with h | h | h | h <;> subst h <;> exact Nat.mod_lt _ (by norm_num)

/-- Every little-endian word byte is below 256. -/
theorem mem_wordBytesLE_lt (w b : Nat) (hb : b ∈ wordBytesLE w) : b < 256 := by
  simp only [wordBytesLE, List.mem_cons, List.not_mem_nil, or_false] at hb
  rcases hb with h | h | h | h <;> subst h <;> exact Nat.mod_lt _ (by norm_num)

/-- Every byte of a big-endian word serialization is below 256. -/
theorem mem_wordsToBytesBE_lt (ws : List Nat) (b : Nat)
    (hb : b ∈ wordsToBytesBE ws) : b < 256 := by
  simp only [wordsToBytesBE, List.mem_flatten, List.mem_map] at hb
  obtain ⟨l, ⟨w, _, rfl⟩, hbl⟩ := hb
  exact mem_wordBytesBE_lt w b hbl

/-- Every byte of a little-endian word serialization is below 256. -/
theorem mem_wordsToBytesLE_lt (ws : List Nat) (b : Nat)
    (hb : b ∈ wordsToBytesLE ws) : b < 256 := by
  simp only [wordsToBytesLE, List.mem_flatten, List.mem_map] at hb
  obtain ⟨l, ⟨w, _, rfl⟩, hbl⟩ := hb
  exact mem_wordBytesLE_lt w b hbl

/-- Every byte of a SHA-256 digest is below 256. -/
theorem sha256_byte_lt (msg : List Nat) (b : Nat) (hb : b ∈ sha256 msg) : b < 256 :=
  mem_wordsToBytesBE_lt _ b hb

/-- Every byte of a RIPEMD-160 digest is below 256. -/
theorem ripemd160_byte_lt (msg : List Nat) (b : Nat) (hb : b ∈ ripemd160 msg) : b < 256 :=
  mem_wordsToBytesLE_lt _ b hb

/-! ## Base-58 decoding inverts base-58 encoding -/

/-- The fuel-based digit function agrees with the Mathlib digit function
once the fuel covers the number. -/
theorem digitsFuel_eq_digits (b : Nat) (hb : 2 ≤ b) :
    ∀ f n, n ≤ f → digitsFuel b f n = Nat.digits b n
  | 0, n, hn => by
      have h0 : n = 0 := Nat.le_zero.mp hn
      subst h0
      simp [digitsFuel]
  | f+1, n, hn => by
      by_cases h0 : n = 0
      · subst h0; simp [digitsFuel]
      · have hdiv : n / b ≤ f := by
          have h1 : n / b < n := Nat.div_lt_self (Nat.pos_of_ne_zero h0) hb
          omega
        rw [Nat.digits_def' (by omega : 1 < b) (Nat.pos_of_ne_zero h0)]
        simp only [digitsFuel, if_neg h0]
        rw [digitsFuel_eq_digits b hb f (n / b) hdiv]

/-- The digit list used by the base-58 codec is the Mathlib digit list. -/
theorem natDigitsLE_eq_digits (b n : Nat) (hb : 2 ≤ b) :
    natDigitsLE b n = Nat.digits b n :=
  digitsFuel_eq_digits b hb n n le_rfl

/-- A positional left fold reads a big-endian digit list as its value. -/
theorem foldl_mul_add (B : Nat) :
    ∀ (l : List Nat) (a : Nat),
      l.foldl (fun x d => x * B + d) a = a * B ^ l.length + Nat.ofDigits B l.reverse
  | [], a => by simp [Nat.ofDigits]
  | d :: t, a => by
      have ih := foldl_mul_add B t (a * B + d)
      simp only [List.foldl_cons] at ih ⊢
      rw [ih]
      simp only [List.reverse_cons, Nat.ofDigits_append, List.length_reverse,
        List.length_cons, Nat.ofDigits, Nat.cast_id]
      ring

/-- The big-endian byte value is the Mathlib value of the reversed list. -/
theorem bytesToNatBE_eq (bs : List Nat) :
    bytesToNatBE bs = Nat.ofDigits 256 bs.reverse := by
  have h := foldl_mul_add 256 bs 0
  simpa [bytesToNatBE] using h

/-- Decoding a base-58 digit character returns the digit. -/
theorem b58CharVal_b58DigitChar : ∀ d, d < 58 → b58CharVal (b58DigitChar d) = d := by decide

/-- A nonzero base-58 digit does not encode as the alphabet-zero character. -/
theorem b58DigitChar_ne_one : ∀ d, d < 58 → d ≠ 0 → b58DigitChar d ≠ '1' := by decide

/-- The alphabet-zero character has digit value 0. -/
theorem b58CharVal_one : b58CharVal '1' = 0 := by decide

/-- A byte list is its leading zero bytes followed by its remainder. -/
theorem clz_decomp : ∀ bs : List Nat,
    List.replicate (countLeadingZeroBytes bs) 0 ++ dropLeadingZeroBytes bs = bs
  | [] => rfl
  | b :: t => by
      by_cases hb : b = 0
      · subst hb
        have h1 : countLeadingZeroBytes (0 :: t) = countLeadingZeroBytes t + 1 := by
          simp [countLeadingZeroBytes]
        have h2 : dropLeadingZeroBytes (0 :: t) = dropLeadingZeroBytes t := by
          simp [dropLeadingZeroBytes]
        rw [h1, h2, List.replicate_succ, List.cons_append, clz_decomp t]
      · simp [countLeadingZeroBytes, dropLeadingZeroBytes, hb]

/-- After removing the leading zero bytes, the list is empty or starts
with a nonzero byte. -/
theorem dropLeadingZeroBytes_head : ∀ bs : List Nat,
    dropLeadingZeroBytes bs = [] ∨ ∃ k t, dropLeadingZeroBytes bs = (k+1) :: t
  | [] => Or.inl rfl
  | b :: t => by
      by_cases hb : b = 0
      · subst hb
        simpa [dropLeadingZeroBytes] using dropLeadingZeroBytes_head t
      · right
        obtain ⟨k, rfl⟩ := Nat.exists_eq_succ_of_ne_zero hb
        exact ⟨k, t, by simp [dropLeadingZeroBytes]⟩

/-- Bytes surviving the zero-strip come from the original list. -/
theorem mem_dropLeadingZeroBytes : ∀ (bs : List Nat) (b : Nat),
    b ∈ dropLeadingZeroBytes bs → b ∈ bs
  | [], b, h => by simp [dropLeadingZeroBytes] at h
  | x :: t, b, h => by
      by_cases hx : x = 0
      · subst hx
        simp only [dropLeadingZeroBytes, if_pos rfl] at h
        exact List.mem_cons_of_mem _ (mem_dropLeadingZeroBytes t b h)
      · simpa [dropLeadingZeroBytes, hx] using h

/-- Leading zero bytes do not change the big-endian value. -/
theorem bytesToNatBE_replicate_zero :
    ∀ (z : Nat) (rest : List Nat),
      bytesToNatBE (List.replicate z 0 ++ rest) = bytesToNatBE rest
  | 0, rest => rfl
  | z+1, rest => by
      have h0 : (0 : Nat) * 256 + 0 = 0 := by ring
      show (List.replicate (z+1) 0 ++ rest).foldl (fun x d => x * 256 + d) 0 =
        rest.foldl (fun x d => x * 256 + d) 0
      rw [List.replicate_succ, List.cons_append, List.foldl_cons, h0]
      exact bytesToNatBE_replicate_zero z rest

/-- Counting leading alphabet zeros through a replicate prefix. -/
theorem countLeadingOnes_replicate_append (z : Nat) (cs : List Char) :
    countLeadingOnes (List.replicate z '1' ++ cs) = z + countLeadingOnes cs := by
  induction z with
  | zero => simp
  | succ z ih =>
      have h1 : countLeadingOnes ('1' :: (List.replicate z '1' ++ cs)) =
          countLeadingOnes (List.replicate z '1' ++ cs) + 1 := by
        simp [countLeadingOnes]
      rw [List.replicate_succ, List.cons_append, h1, ih]
      omega

/-- A string starting with a character other than the alphabet zero has no
leading alphabet zeros. -/
theorem countLeadingOnes_cons_ne (c : Char) (cs : List Char) (hc : c ≠ '1') :
    countLeadingOnes (c :: cs) = 0 := by
  simp [countLeadingOnes, hc]

/-- Leading alphabet zeros do not change the base-58 value. -/
theorem b58StrToNat_replicate_one :
    ∀ (z : Nat) (cs : List Char),
      b58StrToNat (List.replicate z '1' ++ cs) = b58StrToNat cs
  | 0, cs => rfl
  | z+1, cs => by
      have h0 : (0 : Nat) * 58 + b58CharVal '1' = 0 := by decide
      show (List.replicate (z+1) '1' ++ cs).foldl (fun a c => a * 58 + b58CharVal c) 0 =
        cs.foldl (fun a c => a * 58 + b58CharVal c) 0
      rw [List.replicate_succ, List.cons_append, List.foldl_cons, h0]
      exact b58StrToNat_replicate_one z cs

/-- Folding the encoded characters of small digits folds the digits. -/
theorem foldl_b58_map_chr : ∀ (l : List Nat) (a : Nat), (∀ d ∈ l, d < 58) →
    (l.map b58DigitChar).foldl (fun x c => x * 58 + b58CharVal c) a =
      l.foldl (fun x d => x * 58 + d) a
  | [], _, _ => rfl
  | d :: t, a, h => by
      have hd : d < 58 := h d (List.mem_cons_self d t)
      have ht : ∀ x ∈ t, x < 58 := fun x hx => h x (List.mem_cons_of_mem d hx)
      simp only [List.map_cons, List.foldl_cons, b58CharVal_b58DigitChar d hd]
      exact foldl_b58_map_chr t _ ht

/-- Base-58 decoding inverts base-58 encoding on byte lists. -/
theorem base58_roundtrip (bs : List Nat) (hb : ∀ b ∈ bs, b < 256) :
    base58Decode (base58Encode bs) = bs := by
  have hdec := clz_decomp bs
  have hN : bytesToNatBE bs = Nat.ofDigits 256 (dropLeadingZeroBytes bs).reverse := by
    conv_lhs => rw [← hdec]
    rw [bytesToNatBE_replicate_zero, bytesToNatBE_eq]
  have hrlt : ∀ x ∈ (dropLeadingZeroBytes bs).reverse, x < 256 := fun x hx =>
    hb x (mem_dropLeadingZeroBytes bs x (List.mem_reverse.mp hx))
  rcases dropLeadingZeroBytes_head bs with hnil | ⟨k, t, hkt⟩
  · -- all bytes are zero
    rw [hnil] at hN hdec
    have hN0 : bytesToNatBE bs = 0 := by
      rw [hN]
      simp [Nat.ofDigits]
    have hdata : (base58Encode bs).data =
        List.replicate (countLeadingZeroBytes bs) '1' := by
      show (String.mk _).data = _
      rw [hN0]
      simp [natDigitsLE_eq_digits 58 0 (by norm_num)]
    have hones : countLeadingOnes (List.replicate (countLeadingZeroBytes bs) '1') =
        countLeadingZeroBytes bs := by
      have h := countLeadingOnes_replicate_append (countLeadingZeroBytes bs) []
      simpa [countLeadingOnes] using h
    have hval : b58StrToNat (List.replicate (countLeadingZeroBytes bs) '1') = 0 := by
      simpa using b58StrToNat_replicate_one (countLeadingZeroBytes bs) []
    show List.replicate (countLeadingOnes (base58Encode bs).data) 0 ++
      (natDigitsLE 256 (b58StrToNat (base58Encode bs).data)).reverse = bs
    rw [hdata, hones, hval, natDigitsLE_eq_digits 256 0 (by norm_num)]
    simpa using hdec
  · -- the remainder starts with a nonzero byte
    have hdig256 : Nat.digits 256 (bytesToNatBE bs) = (dropLeadingZeroBytes bs).reverse := by
      rw [hN]
      refine Nat.digits_ofDigits 256 (by norm_num) _ hrlt ?_
      intro h
      have h1 : ((dropLeadingZeroBytes bs).reverse).getLast? = some (k+1) := by
        rw [List.getLast?_reverse, hkt]
        rfl
      rw [List.getLast?_eq_getLast_of_ne_nil h] at h1
      rw [Option.some.inj h1]
      exact Nat.succ_ne_zero k
    have hN0 : bytesToNatBE bs ≠ 0 := by
      intro h0
      rw [h0, hkt] at hdig256
      simp at hdig256
    have hd58 : Nat.digits 58 (bytesToNatBE bs) ≠ [] :=
      Nat.digits_ne_nil_iff_ne_zero.mpr hN0
    have hrevne : (Nat.digits 58 (bytesToNatBE bs)).reverse ≠ [] := by
      simpa [List.reverse_eq_nil_iff] using hd58
    obtain ⟨c0, D', hD⟩ := List.exists_cons_of_ne_nil hrevne
    have hc0last : c0 = (Nat.digits 58 (bytesToNatBE bs)).getLast hd58 := by
      have h1 := List.getLast?_eq_getLast_of_ne_nil hd58
      have h2 : (Nat.digits 58 (bytesToNatBE bs)).getLast? = some c0 := by
        rw [← List.head?_reverse, hD]
        rfl
      rw [h1] at h2
      exact (Option.some.inj h2).symm
    have hc0ne : c0 ≠ 0 := by
      rw [hc0last]
      exact Nat.getLast_digit_ne_zero 58 hN0
    have hc0mem : c0 ∈ Nat.digits 58 (bytesToNatBE bs) := by
      rw [hc0last]
      exact List.getLast_mem hd58
    have hc0lt : c0 < 58 := Nat.digits_lt_base (by norm_num) hc0mem
    have hchar : b58DigitChar c0 ≠ '1' := b58DigitChar_ne_one c0 hc0lt hc0ne
    have hdata : (base58Encode bs).data =
        List.replicate (countLeadingZeroBytes bs) '1' ++
          ((Nat.digits 58 (bytesToNatBE bs)).reverse.map b58DigitChar) := by
      show (String.mk _).data = _
      rw [natDigitsLE_eq_digits 58 (bytesToNatBE bs) (by norm_num)]
    have hones : countLeadingOnes (base58Encode bs).data = countLeadingZeroBytes bs := by
      rw [hdata, hD, List.map_cons, countLeadingOnes_replicate_append,
        countLeadingOnes_cons_ne _ _ hchar]
      rfl
    have hval : b58StrToNat (base58Encode bs).data = bytesToNatBE bs := by
      rw [hdata]
      rw [b58StrToNat_replicate_one]
      show ((Nat.digits 58 (bytesToNatBE bs)).reverse.map b58DigitChar).foldl
        (fun a c => a * 58 + b58CharVal c) 0 = _
      rw [foldl_b58_map_chr _ 0
        (fun d hd => Nat.digits_lt_base (by norm_num) (List.mem_reverse.mp hd))]
      rw [foldl_mul_add 58, List.reverse_reverse]
      simp [Nat.ofDigits_digits]
    show List.replicate (countLeadingOnes (base58Encode bs).data) 0 ++
      (natDigitsLE 256 (b58StrToNat (base58Encode bs).data)).reverse = bs
    rw [hones, hval, natDigitsLE_eq_digits 256 _ (by norm_num), hdig256,
      List.reverse_reverse]
    exact hdec

/-! ## The 25-byte address payload -/

/-- The version-tagged RIPEMD-160 hash with its checksum: the 25-byte
payload generateAddress feeds to the base-58 encoder. -/
def addressPayload (docHash : List Nat) : List Nat :=
  addVersionByte (ripemd160 docHash) ++
    (sha256 (sha256 (addVersionByte (ripemd160 docHash)))).take 4

/-- Every payload byte is an honest byte value. -/
theorem addressPayload_byte_lt (d : List Nat) :
    ∀ b ∈ addressPayload d, b < 256 := by
  intro b hb
  simp only [addressPayload, addVersionByte, List.mem_append, List.mem_cons] at hb
  rcases hb with (h0 | hr) | ht
  · subst h0
    norm_num [VERSION_BYTE]
  · exact ripemd160_byte_lt d b hr
  · exact sha256_byte_lt _ b (List.mem_of_mem_take ht)

/-- The payload is 25 bytes long. -/
theorem addressPayload_length (d : List Nat) : (addressPayload d).length = 25 := by
  have h1 := ripemd160_length d
  have h2 := sha256_length (sha256 (addVersionByte (ripemd160 d)))
  simp only [addVersionByte] at h2
  simp only [addressPayload, addVersionByte, List.length_append, List.length_cons,
    List.length_take, h1, h2]
  omega

/-- The generated address string is the base-58 encoding of the payload. -/
theorem generateAddress_address (d : List Nat) :
    (generateAddress d).address = base58Encode (addressPayload d) := rfl

/-- Decoding the generated address recovers the payload. -/
theorem base58Decode_generateAddress (d : List Nat) :
    base58Decode (generateAddress d).address = addressPayload d := by
  rw [generateAddress_address]
  exact base58_roundtrip _ (addressPayload_byte_lt d)

/-- The first 21 decoded bytes are the version-tagged hash. -/
theorem base58Decode_take21 (d : List Nat) :
    (base58Decode (generateAddress d).address).take 21 = addVersionByte (ripemd160 d) := by
  rw [base58Decode_generateAddress]
  unfold addressPayload
  refine List.take_left' ?_
  simp [addVersionByte, ripemd160_length d]

/-- The last 4 decoded bytes are the checksum. -/
theorem base58Decode_drop21 (d : List Nat) :
    (base58Decode (generateAddress d).address).drop 21 =
      (sha256 (sha256 (addVersionByte (ripemd160 d)))).take 4 := by
  rw [base58Decode_generateAddress]
  unfold addressPayload
  refine List.drop_left' ?_
  simp [addVersionByte, ripemd160_length d]

/-- An encoded payload with a leading zero byte starts with the
alphabet-zero character. -/
theorem base58Encode_zero_head (t : List Nat) :
    ((base58Encode (0 :: t)).data).head? = some '1' := by
  have h1 : countLeadingZeroBytes (0 :: t) = countLeadingZeroBytes t + 1 := by
    simp [countLeadingZeroBytes]
  show (List.replicate (countLeadingZeroBytes (0 :: t)) '1' ++
    ((natDigitsLE 58 (bytesToNatBE (0 :: t))).reverse.map b58DigitChar)).head? = some '1'
  rw [h1, List.replicate_succ, List.cons_append]
  rfl

/-! ## The claims -/

set_option maxRecDepth 200000

set_option maxHeartbeats 2000000

/-- C1: the claim states that verifyTimestamp returns the timestamp of the
transaction with the minimum time, and that a response with transactions
at times [500, 100, 300] yields the timestamp for 100. The embedded code
sorts with an object comparator that always compares equal (a stable
no-op) and takes the first listed transaction, so on that response it
returns the timestamp for 500, not 100. -/
theorem verifyTimestamp_returns_first_not_min :
    verifyTimestamp (.okTxs [⟨500⟩, ⟨100⟩, ⟨300⟩]) = .success (500 * 1000) ∧
    verifyTimestamp (.okTxs [⟨500⟩, ⟨100⟩, ⟨300⟩]) ≠ .success (100 * 1000) := by
  decide

/-- C2: the claim states that an open failure or a mid-stream read error
is delivered to the callback as an IOError. The embedded code registers
no error handler on the read stream, so the error event is never
delivered to the callback: the emitter throws and the process crashes.
No digest value reaches the callback in either failure case. -/
theorem sha256File_error_not_delivered :
    (∀ e, sha256File (.openError e) = .uncaughtCrash e) ∧
    (∀ chunks e, sha256File (.readError chunks e) = .uncaughtCrash e) ∧
    (∀ ev e, sha256File ev ≠ .callbackError e) := by
  refine ⟨fun _ => rfl, fun _ _ => rfl, ?_⟩
  intro ev e
  cases ev <;> simp [sha256File, sha256FileErrorHandler]

/-- C3: for every 32-byte digest the generated address equals the
specification pipeline (RIPEMD-160, version byte 0x00 in front, double
SHA-256, first 4 bytes as checksum, checksum appended, base-58 encoded)
and the trace records every intermediate value in hex; for the all-zero
32-byte digest every trace field equals its independently computed
reference value. -/
theorem generateAddress_matches_spec_pipeline :
    (∀ d : List Nat, d.length = 32 →
      (generateAddress d).address = deriveAddressSpec d ∧
      (generateAddress d).detail =
        ⟨bytesToHex d,
         bytesToHex (ripemd160 d),
         bytesToHex (0x00 :: ripemd160 d),
         bytesToHex (sha256 (0x00 :: ripemd160 d)),
         bytesToHex (sha256 (sha256 (0x00 :: ripemd160 d))),
         bytesToHex ((sha256 (sha256 (0x00 :: ripemd160 d))).take 4),
         bytesToHex ((0x00 :: ripemd160 d) ++ (sha256 (sha256 (0x00 :: ripemd160 d))).take 4),
         deriveAddressSpec d⟩) ∧
    (generateAddress (List.replicate 32 0)).address =
      "1L7YHmb2Qtk7MABJGhDfvmRLiLGGeZeMVY" ∧
    (generateAddress (List.replicate 32 0)).detail =
      ⟨"0000000000000000000000000000000000000000000000000000000000000000",
       "d1a70126ff7a149ca6f9b638db084480440ff842",
       "00d1a70126ff7a149ca6f9b638db084480440ff842",
       "3445e3971097a99b3f0cbf60e2e22f7997b75640ba164d829775eb9867bd4ee2",
       "8b7a9b6f0d475e02652c3461482ac26e255624a74f0f4af085bff0de4093195d",
       "8b7a9b6f",
       "00d1a70126ff7a149ca6f9b638db084480440ff8428b7a9b6f",
       "1L7YHmb2Qtk7MABJGhDfvmRLiLGGeZeMVY"⟩ := by
  refine ⟨fun d _ => ⟨rfl, rfl⟩, ?_⟩
  decide

/-- C3 witness: the pipeline equalities instantiated at the all-zero
32-byte digest. -/
theorem generateAddress_matches_spec_pipeline_witness :
    (List.replicate 32 0 : List Nat).length = 32 ∧
    ((generateAddress (List.replicate 32 (0 : Nat))).address =
        deriveAddressSpec (List.replicate 32 0) ∧
     (generateAddress (List.replicate 32 (0 : Nat))).detail =
        ⟨bytesToHex (List.replicate 32 0),
         bytesToHex (ripemd160 (List.replicate 32 0)),
         bytesToHex (0x00 :: ripemd160 (List.replicate 32 0)),
         bytesToHex (sha256 (0x00 :: ripemd160 (List.replicate 32 0))),
         bytesToHex (sha256 (sha256 (0x00 :: ripemd160 (List.replicate 32 0)))),
         bytesToHex ((sha256 (sha256 (0x00 :: ripemd160 (List.replicate 32 0)))).take 4),
         bytesToHex ((0x00 :: ripemd160 (List.replicate 32 0)) ++
           (sha256 (sha256 (0x00 :: ripemd160 (List.replicate 32 0)))).take 4),
         deriveAddressSpec (List.replicate 32 0)⟩) :=
  ⟨by simp, generateAddress_matches_spec_pipeline.1 (List.replicate 32 0) (by simp)⟩

/-- C4: for every 32-byte digest, base-58 decoding the derived address
gives 25 bytes; stripping the last 4 bytes leaves 21 bytes whose double
SHA-256 starts with exactly the 4 stripped bytes. -/
theorem address_checksum_roundtrip :
    ∀ d : List Nat, d.length = 32 →
      (base58Decode (generateAddress d).address).length = 25 ∧
      ((base58Decode (generateAddress d).address).take 21).length = 21 ∧
      (sha256 (sha256 ((base58Decode (generateAddress d).address).take 21))).take 4 =
        (base58Decode (generateAddress d).address).drop 21 := by
  intro d _
  refine ⟨?_, ?_, ?_⟩
  · rw [base58Decode_generateAddress]
    exact addressPayload_length d
  · rw [base58Decode_take21]
    simp [addVersionByte, ripemd160_length d]
  · rw [base58Decode_take21, base58Decode_drop21]

/-- C4 witness: the checksum round-trip at the all-zero 32-byte digest. -/
theorem address_checksum_roundtrip_witness :
    (List.replicate 32 0 : List Nat).length = 32 ∧
    ((base58Decode (generateAddress (List.replicate 32 (0 : Nat))).address).length = 25 ∧
     ((base58Decode (generateAddress (List.replicate 32 (0 : Nat))).address).take 21).length = 21 ∧
     (sha256 (sha256 ((base58Decode (generateAddress (List.replicate 32 (0 : Nat))).address).take 21))).take 4 =
       (base58Decode (generateAddress (List.replicate 32 (0 : Nat))).address).drop 21) :=
  ⟨by simp, address_checksum_roundtrip (List.replicate 32 0) (by simp)⟩

/-- C5: for every 32-byte digest, the decoded address minus its trailing
4-byte checksum is a 21-byte value beginning with the byte 0x00. -/
theorem address_version_byte_first :
    ∀ d : List Nat, d.length = 32 →
      (base58Decode (generateAddress d).address).length = 25 ∧
      ((base58Decode (generateAddress d).address).take 21).length = 21 ∧
      ((base58Decode (generateAddress d).address).take 21).head? = some 0 := by
  intro d _
  refine ⟨?_, ?_, ?_⟩
  · rw [base58Decode_generateAddress]
    exact addressPayload_length d
  · rw [base58Decode_take21]
    simp [addVersionByte, ripemd160_length d]
  · rw [base58Decode_take21]
    rfl

/-- C5 witness: version byte placement at the all-zero 32-byte digest. -/
theorem address_version_byte_first_witness :
    (List.replicate 32 0 : List Nat).length = 32 ∧
    ((base58Decode (generateAddress (List.replicate 32 (0 : Nat))).address).length = 25 ∧
     ((base58Decode (generateAddress (List.replicate 32 (0 : Nat))).address).take 21).length = 21 ∧
     ((base58Decode (generateAddress (List.replicate 32 (0 : Nat))).address).take 21).head? = some 0) :=
  ⟨by simp, address_version_byte_first (List.replicate 32 0) (by simp)⟩

/-- C6: address derivation is deterministic: equal digest bytes give the
identical address string, hex digest field and trace. -/
theorem generateAddress_deterministic :
    ∀ d1 d2 : List Nat, d1 = d2 →
      (generateAddress d1).address = (generateAddress d2).address ∧
      (generateAddress d1).sha256 = (generateAddress d2).sha256 ∧
      (generateAddress d1).detail = (generateAddress d2).detail := by
  intro d1 d2 h
  subst h
  exact ⟨rfl, rfl, rfl⟩

/-- C6 witness: determinism applied at the all-zero 32-byte digest. -/
theorem generateAddress_deterministic_witness :
    (List.replicate 32 0 : List Nat) = List.replicate 32 0 ∧
    ((generateAddress (List.replicate 32 (0 : Nat))).address =
        (generateAddress (List.replicate 32 (0 : Nat))).address ∧
     (generateAddress (List.replicate 32 (0 : Nat))).sha256 =
        (generateAddress (List.replicate 32 (0 : Nat))).sha256 ∧
     (generateAddress (List.replicate 32 (0 : Nat))).detail =
        (generateAddress (List.replicate 32 (0 : Nat))).detail) :=
  ⟨rfl, generateAddress_deterministic (List.replicate 32 0) (List.replicate 32 0) rfl⟩

/-- C7: a well-formed response with zero transactions fails with the
address-not-seen error, which is not a success and differs from every
transport-failure outcome. -/
theorem verifyTimestamp_empty_distinguishable :
    verifyTimestamp (.okTxs []) = .error (.errString addressNotSeenMessage) ∧
    verifyTimestamp .okNoData = .error (.errString addressNotSeenMessage) ∧
    verifyTimestamp .okNoTxs = .error (.errString addressNotSeenMessage) ∧
    (∀ ms, verifyTimestamp (.okTxs []) ≠ .success ms) ∧
    (∀ e, verifyTimestamp (.okTxs []) ≠ verifyTimestamp (.err e)) := by
  refine ⟨rfl, rfl, rfl, ?_, ?_⟩
  · intro ms
    simp [verifyTimestamp]
  · intro e
    simp [verifyTimestamp]

/-- C8: the claim states exit code 1 on every failure. On a missing file
argument the embedded command-line block exits 0, not 1: the commander
help call at line 223 terminates the process with exit code 0 before the
explicit exit call with code 1 at line 224 can run. The other branches do
behave as the claim states: both digesting-failure event sequences exit 1
(through the uncaught stream error crash), a verification error with the
verify flag exits 1, and both success paths exit 0. -/
theorem cli_missing_file_exits_zero :
    (∀ v ev lg, cliRun false v ev lg = 0 ∧ cliRun false v ev lg ≠ 1) ∧
    (∀ v e lg, cliRun true v (.openError e) lg = 1) ∧
    (∀ v cs e lg, cliRun true v (.readError cs e) lg = 1) ∧
    (∀ cs lg e, verifyTimestamp lg = .error e → cliRun true true (.complete cs) lg = 1) ∧
    (∀ cs lg ms, verifyTimestamp lg = .success ms → cliRun true true (.complete cs) lg = 0) ∧
    (∀ cs lg, cliRun true false (.complete cs) lg = 0) := by
  refine ⟨fun _ _ _ => ⟨rfl, Nat.zero_ne_one⟩, fun _ _ _ => rfl, fun _ _ _ _ => rfl, ?_, ?_,
    fun _ _ => rfl⟩
  · intro cs lg e h
    simp [cliRun, sha256File, h]
  · intro cs lg ms h
    simp [cliRun, sha256File, h]

/-- C8 witness: concrete exit codes for a failing and a succeeding
verification. -/
theorem cli_missing_file_exits_zero_witness :
    (verifyTimestamp .okNoData = .error (.errString addressNotSeenMessage) ∧
     cliRun true true (.complete []) .okNoData = 1) ∧
    (verifyTimestamp (.okTxs [⟨7⟩]) = .success (7 * 1000) ∧
     cliRun true true (.complete []) (.okTxs [⟨7⟩]) = 0) :=
  ⟨⟨rfl, cli_missing_file_exits_zero.2.2.2.1 [] .okNoData
      (.errString addressNotSeenMessage) rfl⟩,
   ⟨rfl, cli_missing_file_exits_zero.2.2.2.2.1 [] (.okTxs [⟨7⟩]) (7 * 1000) rfl⟩⟩

/-- C9: for every 32-byte digest the derived address string begins with
the character 1, because the version byte 0x00 is a leading zero byte of
the 25-byte payload and base-58 renders leading zero bytes as 1. -/
theorem address_starts_with_one :
    ∀ d : List Nat, d.length = 32 →
      ((generateAddress d).address).data.head? = some '1' := by
  intro d _
  exact base58Encode_zero_head
    (ripemd160 d ++ (sha256 (sha256 (addVersionByte (ripemd160 d)))).take 4)

/-- C9 witness: the address of the all-zero 32-byte digest starts with 1. -/
theorem address_starts_with_one_witness :
    (List.replicate 32 0 : List Nat).length = 32 ∧
    ((generateAddress (List.replicate 32 (0 : Nat))).address).data.head? = some '1' :=
  ⟨by simp, address_starts_with_one (List.replicate 32 0) (by simp)⟩

/-- C10: generateAddress never checks the length of its input: for a
buffer of any length it returns a well-formed address whose 25-byte
payload is built over RIPEMD-160 of whatever bytes were given, and in
particular the empty buffer yields an address. -/
theorem generateAddress_any_length :
    (∀ bs : List Nat, (∀ b ∈ bs, b < 256) →
      (generateAddress bs).address = base58Encode (addressPayload bs) ∧
      (base58Decode (generateAddress bs).address).length = 25) ∧
    (generateAddress []).address = "1FEDQP2D5zmpRXRG5zQn7vYVs4JVHinjEv" := by
  refine ⟨fun bs _ => ⟨rfl, ?_⟩, ?_⟩
  · rw [base58Decode_generateAddress]
    exact addressPayload_length bs
  · decide

/-- C10 witness: the well-formed address produced for the empty buffer. -/
theorem generateAddress_any_length_witness :
    (∀ b ∈ ([] : List Nat), b < 256) ∧
    ((generateAddress ([] : List Nat)).address = base58Encode (addressPayload []) ∧
     (base58Decode (generateAddress ([] : List Nat)).address).length = 25) :=
  ⟨by simp, generateAddress_any_length.1 [] (by simp)⟩
